import Mathlib

/-!
Shallow embedding of `src/printer.rs` (deno_doc terminal pretty-printer).

The printer is straight-line formatting code: every effect is a `write!`
to a `std::fmt::Formatter`, each propagated with `?`.  We embed each
`format_*` method as a pure function returning its *write trace*: a
`List Write`, where one `Write` (one `write!`/`writeln!` call) is a list
of styled text chunks.  Rendering a trace to a `String` either keeps the
styling as ANSI escape sequences (`use_color = true`) or drops it
(`use_color = false`), mirroring the global color toggle in
`DocPrinter::format_` (printer.rs lines 52-54 and 90-92).

The crate's `colors` and `display` helper modules and the data model
(`node.rs`, `js_doc.rs`, the `*Def` types) are not part of the provided
source; where the printer depends on them they are modelled from the
spec, as marked on each definition.  Members of classes / interfaces /
enums are rendered by `Display` impls outside the provided source, so
each member carries its rendered form as an opaque string field `repr`
together with the fields `printer.rs` actually reads (accessibility,
decorators, js_doc).
-/

/-- Styles applied by the `colors` module functions used in printer.rs:
`magenta` (keywords), `bold` (names), `italic_gray` (location headers),
`gray` (doc text). -/
inductive Style where
  | magenta
  | bold
  | gray
  | italicGray
deriving DecidableEq, Repr

/-- One piece of emitted text: either plain, or wrapped in a style by one
of the `colors` functions. -/
inductive Chunk where
  | plain (s : String)
  | styled (st : Style) (s : String)
deriving DecidableEq, Repr

/-- One `write!`/`writeln!` call: the list of chunks it emits. -/
abbrev Write := List Chunk

/-- Modelled from the spec: ANSI start code for each style ("specific
tokens are wrapped in ANSI styling", spec section 4.2; the `colors` module is
not part of the provided source). -/
def styleCode : Style → String
  | .magenta => "\x1b[35m"
  | .bold => "\x1b[1m"
  | .gray => "\x1b[90m"
  | .italicGray => "\x1b[3m\x1b[90m"

/-- Modelled from the spec: ANSI reset code closing a styled span. -/
def resetCode : String := "\x1b[0m"

/-- Text content of a chunk, with styling dropped. -/
def chunkText : Chunk → String
  | .plain s => s
  | .styled _ s => s

/-- Text of a chunk as emitted when color is enabled: styled chunks are
wrapped in their ANSI start code and the reset code. -/
def chunkAnsi : Chunk → String
  | .plain s => s
  | .styled st s => styleCode st ++ s ++ resetCode

/-- Render a chunk list without color (the `use_color = false` pass). -/
def renderPlain : List Chunk → String
  | [] => ""
  | c :: cs => chunkText c ++ renderPlain cs

/-- Render a chunk list with color (the `use_color = true` pass). -/
def renderAnsi : List Chunk → String
  | [] => ""
  | c :: cs => chunkAnsi c ++ renderAnsi cs

/-- Character-level ANSI stripper state machine: outside an escape
sequence, keep characters until ESC (0x1b); inside one, drop characters
up to and including the terminating 'm'. -/
def stripGo : List Char → Bool → List Char
  | [], _ => []
  | c :: cs, false => if c = '\x1b' then stripGo cs true else c :: stripGo cs false
  | c :: cs, true => if c = 'm' then stripGo cs false else stripGo cs true

/-- State of the ANSI stripper after consuming a character list. -/
def stripState : List Char → Bool → Bool
  | [], b => b
  | c :: cs, false => if c = '\x1b' then stripState cs true else stripState cs false
  | c :: cs, true => if c = 'm' then stripState cs false else stripState cs true

/-- Strip ANSI escape sequences from a string. -/
def stripAnsi (s : String) : String := ⟨stripGo s.data false⟩

/-- A string free of the ESC character, hence of ANSI escape sequences. -/
def escFree (s : String) : Prop := '\x1b' ∉ s.data

instance (s : String) : Decidable (escFree s) := by
  unfold escFree; infer_instance

/-- Modelled from the spec: indentation unit is two spaces per depth
level (spec section 4.2; the `display` module's `Indent` is not part of the
provided source). -/
def indentOf : Nat → String
  | 0 => ""
  | n + 1 => "  " ++ indentOf n

/-- The `Indent(n)` display helper as a chunk. -/
def Indent (n : Nat) : Chunk := .plain (indentOf n)

/-- Newline chunk emitted by the trailing part of every `writeln!`. -/
def nlChunk : Chunk := .plain "\n"

/-! ## Data model

Mirrors `node.rs` / swc AST types as consumed by printer.rs; fields the
printer never reads are omitted.  Where the defining file is not part of
the provided source, the shape follows the spec's section 3 data model. -/

/-- Accessibility of a class member (swc `Accessibility`). -/
inductive Accessibility where
  | Public
  | Protected
  | Private
deriving DecidableEq, Repr

/-- Source location of a declaration. -/
structure Location where
  filename : String
  line : Nat
  col : Nat
deriving DecidableEq, Repr

/-- Parsed doc comment; printer.rs only reads the optional `doc` text. -/
structure JsDoc where
  doc : Option String
deriving DecidableEq, Repr

/-- Modelled from the spec: a parameter has a name and an optional type,
rendered as name[: Type] (spec sections 3 and 8; the param `Display` impl is
not part of the provided source). -/
structure ParamDef where
  name : String
  tsType : Option String
deriving DecidableEq, Repr

/-- Modelled from the spec: rendered form of a parameter. -/
def paramRepr (p : ParamDef) : String :=
  p.name ++ (match p.tsType with
    | some t => ": " ++ t
    | none => "")

/-- Function definition payload.  Type parameters are their names (spec
section 3); decorators are kept as rendered strings. -/
structure FunctionDef where
  isAsync : Bool
  isGenerator : Bool
  typeParams : List String
  params : List ParamDef
  returnType : Option String
  decorators : List String
deriving DecidableEq, Repr

/-- Variable declaration kind (swc `VarDeclKind`). -/
inductive VarDeclKind where
  | Const
  | Let
  | Var
deriving DecidableEq, Repr

/-- Variable definition payload. -/
structure VariableDef where
  kind : VarDeclKind
  tsType : Option String
deriving DecidableEq, Repr

/-- Class constructor member: rendered form plus its doc comment. -/
structure ClassConstructorDef where
  repr : String
  js_doc : JsDoc
deriving DecidableEq, Repr

/-- Class property member: rendered form plus the fields printer.rs
reads (accessibility, decorators, doc comment). -/
structure ClassPropertyDef where
  repr : String
  accessibility : Option Accessibility
  decorators : List String
  js_doc : JsDoc
deriving DecidableEq, Repr

/-- Class method member: printer.rs reads its accessibility, its
function_def's decorators and its doc comment. -/
structure ClassMethodDef where
  repr : String
  accessibility : Option Accessibility
  function_def : FunctionDef
  js_doc : JsDoc
deriving DecidableEq, Repr

/-- Class definition payload (`extends` is a Lean keyword, so the field
is called `extendsType`; likewise `extendsList` on InterfaceDef). -/
structure ClassDef where
  isAbstract : Bool
  typeParams : List String
  extendsType : Option String
  superTypeParams : List String
  implements : List String
  decorators : List String
  constructors : List ClassConstructorDef
  properties : List ClassPropertyDef
  indexSignatures : List String
  methods : List ClassMethodDef
deriving DecidableEq, Repr

/-- Enum member: a name plus its doc comment. -/
structure EnumMemberDef where
  name : String
  js_doc : JsDoc
deriving DecidableEq, Repr

/-- Enum definition payload. -/
structure EnumDef where
  members : List EnumMemberDef
deriving DecidableEq, Repr

/-- Interface property or method member: rendered form plus doc
comment (interface members carry no accessibility). -/
structure InterfaceMemberDef where
  repr : String
  js_doc : JsDoc
deriving DecidableEq, Repr

/-- Interface definition payload. -/
structure InterfaceDef where
  typeParams : List String
  extendsList : List String
  properties : List InterfaceMemberDef
  methods : List InterfaceMemberDef
  indexSignatures : List String
deriving DecidableEq, Repr

/-- Type alias definition payload. -/
structure TypeAliasDef where
  typeParams : List String
  tsType : String
deriving DecidableEq, Repr

/-- The nine DocNode kinds (node.rs `DocNodeKind`). -/
inductive DocNodeKind where
  | ModuleDoc
  | Function
  | Variable
  | Class
  | Enum
  | Interface
  | TypeAlias
  | Namespace
  | Import
deriving DecidableEq, Repr

/-- A documentation node.  As in node.rs it is a record of a kind tag
plus optional per-kind payloads; `namespace_def` holds the nested
elements directly (the `NamespaceDef` wrapper's single `elements` field
is inlined). -/
inductive DocNode where
  | mk
    (kind : DocNodeKind)
    (name : String)
    (location : Location)
    (js_doc : JsDoc)
    (function_def : Option FunctionDef)
    (variable_def : Option VariableDef)
    (class_def : Option ClassDef)
    (enum_def : Option EnumDef)
    (interface_def : Option InterfaceDef)
    (type_alias_def : Option TypeAliasDef)
    (namespace_def : Option (List DocNode))

def DocNode.kind : DocNode → DocNodeKind
  | .mk k _ _ _ _ _ _ _ _ _ _ => k

def DocNode.name : DocNode → String
  | .mk _ n _ _ _ _ _ _ _ _ _ => n

def DocNode.location : DocNode → Location
  | .mk _ _ l _ _ _ _ _ _ _ _ => l

def DocNode.js_doc : DocNode → JsDoc
  | .mk _ _ _ j _ _ _ _ _ _ _ => j

def DocNode.function_def : DocNode → Option FunctionDef
  | .mk _ _ _ _ f _ _ _ _ _ _ => f

def DocNode.variable_def : DocNode → Option VariableDef
  | .mk _ _ _ _ _ v _ _ _ _ _ => v

def DocNode.class_def : DocNode → Option ClassDef
  | .mk _ _ _ _ _ _ c _ _ _ _ => c

def DocNode.enum_def : DocNode → Option EnumDef
  | .mk _ _ _ _ _ _ _ e _ _ _ => e

def DocNode.interface_def : DocNode → Option InterfaceDef
  | .mk _ _ _ _ _ _ _ _ i _ _ => i

def DocNode.type_alias_def : DocNode → Option TypeAliasDef
  | .mk _ _ _ _ _ _ _ _ _ t _ => t

def DocNode.namespace_def : DocNode → Option (List DocNode)
  | .mk _ _ _ _ _ _ _ _ _ _ ns => ns

/-- The printer's configuration: the node list plus the two flags
(`use_color`, and the member-visibility flag named `private` in the
source, a Lean keyword, so called `includePrivate` here as in the
spec). -/
structure DocPrinter where
  doc_nodes : List DocNode
  use_color : Bool
  includePrivate : Bool

/-! ## The printer (printer.rs) -/

namespace colors

/-- The `colors::magenta` wrapper (keywords). -/
def magenta (s : String) : Chunk := .styled .magenta s

/-- The `colors::bold` wrapper (declaration names). -/
def bold (s : String) : Chunk := .styled .bold s

/-- The `colors::gray` wrapper (doc-comment text). -/
def gray (s : String) : Chunk := .styled .gray s

/-- The `colors::italic_gray` wrapper (location headers). -/
def italic_gray (s : String) : Chunk := .styled .italicGray s

end colors

/-- Modelled from the spec: `display::display_async`, the `async `
prefix emitted iff `is_async` (spec section 4.3; display.rs is not part of the
provided source). -/
def display_async (b : Bool) : List Chunk :=
  if b then [Chunk.plain "async "] else []

/-- Modelled from the spec: `display::display_generator`, the `*`
keyword suffix emitted iff `is_generator`. -/
def display_generator (b : Bool) : List Chunk :=
  if b then [Chunk.plain "*"] else []

/-- Modelled from the spec: `display::display_abstract`, the `abstract `
prefix emitted iff `is_abstract`. -/
def display_abstract (b : Bool) : List Chunk :=
  if b then [Chunk.plain "abstract "] else []

/-- Split a character list at newline characters (an empty list yields
one empty segment, as splitting does). -/
def splitNl : List Char → List (List Char)
  | [] => [[]]
  | c :: cs =>
    if c = '\n' then [] :: splitNl cs
    else match splitNl cs with
      | [] => [[c]]
      | l :: ls => (c :: l) :: ls

/-- Rust `str::lines` as used on the doc text: split on newline, with no
final empty line for a trailing newline (carriage returns are assumed
absent from doc text). -/
def rustLines (s : String) : List String :=
  let parts := (splitNl s.data).map fun l => (⟨l⟩ : String)
  if parts.getLast? = some "" then parts.dropLast else parts

/-- Embedding of `DocPrinter::kind_order` (printer.rs lines 97-109); the Rust i64
rank is non-negative, so Nat. -/
def kind_order : DocNodeKind → Nat
  | .ModuleDoc => 0
  | .Function => 1
  | .Variable => 2
  | .Class => 3
  | .Enum => 4
  | .Interface => 5
  | .TypeAlias => 6
  | .Namespace => 7
  | .Import => 8

/-- Byte/codepoint lexicographic order on character lists (for UTF-8
these coincide, as the spec notes), mirroring Rust `String::cmp`'s
`le` half. -/
def lexLe : List Char → List Char → Bool
  | [], _ => true
  | _ :: _, [] => false
  | a :: as, b :: bs => if a < b then true else if b < a then false else lexLe as bs

/-- Rust `a.name.cmp(&b.name)` is byte-lexicographic; `strLe a b` is
"a comes no later than b". -/
def strLe (a b : String) : Bool := lexLe a.data b.data

/-- The sibling comparator of `DocPrinter::format_` (printer.rs lines
57-64): kind rank first, then name. -/
def nodeLe (a b : DocNode) : Prop :=
  kind_order a.kind < kind_order b.kind ∨
    (kind_order a.kind = kind_order b.kind ∧ strLe a.name b.name = true)

instance : DecidableRel nodeLe := fun a b => by
  unfold nodeLe; infer_instance

/-- The `sorted.sort_unstable_by(...)` step of `format_` (printer.rs
lines 56-64).  Rust's unstable sort leaves the relative order of exact
ties (equal rank and equal name) unspecified; insertion sort realizes
one admissible outcome. -/
def sortNodes (l : List DocNode) : List DocNode := List.insertionSort nodeLe l

/-- Embedding of `DocPrinter::format_jsdoc` (printer.rs lines 136-149): one write per
doc line, each `Indent(indent)` then the line in gray, via `writeln!`. -/
def format_jsdoc (js_doc : JsDoc) (indent : Nat) : List Write :=
  match js_doc.doc with
  | some doc => (rustLines doc).map fun line => [Indent indent, colors.gray line, nlChunk]
  | none => []

/-- Embedding of `DocPrinter::format_module_doc` (printer.rs lines 365-374): prints
nothing. -/
def format_module_doc (_p : DocPrinter) (_node : DocNode) (_indent : Nat) : List Write := []

/-- Embedding of `DocPrinter::format_function_signature` (printer.rs lines 296-328).
`SliceDisplayer::new(xs, ", ", false)` is comma-join without trailing
separator, hence `String.intercalate ", "`.  An absent `function_def`
payload is upstream UB (spec section 7) and is modelled as empty output. -/
def format_function_signature (_p : DocPrinter) (node : DocNode) (indent : Nat) : List Write :=
  match node.function_def with
  | none => []
  | some fd =>
    [[Indent indent] ++ display_async fd.isAsync ++ [colors.magenta "function"] ++
      display_generator fd.isGenerator ++ [Chunk.plain " ", colors.bold node.name]] ++
    (if fd.typeParams.isEmpty then [] else
      [[Chunk.plain ("<" ++ String.intercalate ", " fd.typeParams ++ ">")]]) ++
    [[Chunk.plain ("(" ++ String.intercalate ", " (fd.params.map paramRepr) ++ ")")]] ++
    (match fd.returnType with
      | some rt => [[Chunk.plain (": " ++ rt)]]
      | none => []) ++
    [[nlChunk]]

/-- Embedding of `DocPrinter::format_variable_signature` (printer.rs lines 417-439). -/
def format_variable_signature (_p : DocPrinter) (node : DocNode) (indent : Nat) : List Write :=
  match node.variable_def with
  | none => []
  | some vd =>
    [[Indent indent,
      colors.magenta (match vd.kind with
        | .Const => "const"
        | .Let => "let"
        | .Var => "var"),
      Chunk.plain " ", colors.bold node.name]] ++
    (match vd.tsType with
      | some t => [[Chunk.plain (": " ++ t)]]
      | none => []) ++
    [[nlChunk]]

/-- Embedding of `DocPrinter::format_class_signature` (printer.rs lines 232-279).
Note that the super-type-parameter write sits outside the
`if let Some(extends)` block in the source. -/
def format_class_signature (_p : DocPrinter) (node : DocNode) (indent : Nat) : List Write :=
  match node.class_def with
  | none => []
  | some cd =>
    (cd.decorators.map fun d => [Indent indent, Chunk.plain d, nlChunk]) ++
    [[Indent indent] ++ display_abstract cd.isAbstract ++
      [colors.magenta "class", Chunk.plain " ", colors.bold node.name]] ++
    (if cd.typeParams.isEmpty then [] else
      [[Chunk.plain ("<" ++ String.intercalate ", " cd.typeParams ++ ">")]]) ++
    (match cd.extendsType with
      | some e => [[Chunk.plain " ", colors.magenta "extends", Chunk.plain " ", Chunk.plain e]]
      | none => []) ++
    (if cd.superTypeParams.isEmpty then [] else
      [[Chunk.plain ("<" ++ String.intercalate ", " cd.superTypeParams ++ ">")]]) ++
    (if cd.implements.isEmpty then [] else
      [[Chunk.plain " ", colors.magenta "implements", Chunk.plain " ",
        Chunk.plain (String.intercalate ", " cd.implements)]]) ++
    [[nlChunk]]

/-- Embedding of `DocPrinter::format_enum_signature` (printer.rs lines 281-294). -/
def format_enum_signature (_p : DocPrinter) (node : DocNode) (indent : Nat) : List Write :=
  [[Indent indent, colors.magenta "enum", Chunk.plain " ", colors.bold node.name, nlChunk]]

/-- Embedding of `DocPrinter::format_interface_signature` (printer.rs lines 330-363). -/
def format_interface_signature (_p : DocPrinter) (node : DocNode) (indent : Nat) : List Write :=
  match node.interface_def with
  | none => []
  | some idf =>
    [[Indent indent, colors.magenta "interface", Chunk.plain " ", colors.bold node.name]] ++
    (if idf.typeParams.isEmpty then [] else
      [[Chunk.plain ("<" ++ String.intercalate ", " idf.typeParams ++ ">")]]) ++
    (if idf.extendsList.isEmpty then [] else
      [[Chunk.plain " ", colors.magenta "extends", Chunk.plain " ",
        Chunk.plain (String.intercalate ", " idf.extendsList)]]) ++
    [[nlChunk]]

/-- Embedding of `DocPrinter::format_type_alias_signature` (printer.rs lines
376-400). -/
def format_type_alias_signature (_p : DocPrinter) (node : DocNode) (indent : Nat) : List Write :=
  match node.type_alias_def with
  | none => []
  | some td =>
    [[Indent indent, colors.magenta "type", Chunk.plain " ", colors.bold node.name]] ++
    (if td.typeParams.isEmpty then [] else
      [[Chunk.plain ("<" ++ String.intercalate ", " td.typeParams ++ ">")]]) ++
    [[Chunk.plain " = ", Chunk.plain td.tsType, nlChunk]]

/-- Embedding of `DocPrinter::format_namespace_signature` (printer.rs lines 402-415). -/
def format_namespace_signature (_p : DocPrinter) (node : DocNode) (indent : Nat) : List Write :=
  [[Indent indent, colors.magenta "namespace", Chunk.plain " ", colors.bold node.name, nlChunk]]

/-- Embedding of `DocPrinter::format_signature` (printer.rs lines 111-134): dispatch
on the node kind; Import writes nothing. -/
def format_signature (p : DocPrinter) (node : DocNode) (indent : Nat) : List Write :=
  match node.kind with
  | .ModuleDoc => format_module_doc p node indent
  | .Function => format_function_signature p node indent
  | .Variable => format_variable_signature p node indent
  | .Class => format_class_signature p node indent
  | .Enum => format_enum_signature p node indent
  | .Interface => format_interface_signature p node indent
  | .TypeAlias => format_type_alias_signature p node indent
  | .Namespace => format_namespace_signature p node indent
  | .Import => []

/-- The member-visibility filter of `format_class` (printer.rs lines
157-163 and 173-178): keep a member iff `self.private` or its
accessibility, defaulting to Public, is not Private. -/
def memberShown (p : DocPrinter) (accessibility : Option Accessibility) : Bool :=
  p.includePrivate || (accessibility.getD .Public != .Private)

/-- Embedding of `DocPrinter::format_class` (printer.rs lines 151-187): constructors,
filtered properties (decorators, then the member, then its doc),
index signatures, filtered methods, and a final bare `writeln!`. -/
def format_class (p : DocPrinter) (node : DocNode) : List Write :=
  match node.class_def with
  | none => []
  | some cd =>
    (cd.constructors.flatMap fun c =>
      [[Indent 1, Chunk.plain c.repr, nlChunk]] ++ format_jsdoc c.js_doc 2) ++
    ((cd.properties.filter fun m => memberShown p m.accessibility).flatMap fun m =>
      (m.decorators.map fun d => [Indent 1, Chunk.plain d, nlChunk]) ++
      [[Indent 1, Chunk.plain m.repr, nlChunk]] ++ format_jsdoc m.js_doc 2) ++
    (cd.indexSignatures.map fun s => [Indent 1, Chunk.plain s, nlChunk]) ++
    ((cd.methods.filter fun m => memberShown p m.accessibility).flatMap fun m =>
      (m.function_def.decorators.map fun d => [Indent 1, Chunk.plain d, nlChunk]) ++
      [[Indent 1, Chunk.plain m.repr, nlChunk]] ++ format_jsdoc m.js_doc 2) ++
    [[nlChunk]]

/-- Embedding of `DocPrinter::format_enum` (printer.rs lines 189-196). -/
def format_enum (_p : DocPrinter) (node : DocNode) : List Write :=
  match node.enum_def with
  | none => []
  | some ed =>
    (ed.members.flatMap fun m =>
      [[Indent 1, colors.bold m.name, nlChunk]] ++ format_jsdoc m.js_doc 2) ++
    [[nlChunk]]

/-- Embedding of `DocPrinter::format_interface` (printer.rs lines 198-217):
properties, methods, index signatures, all unfiltered, then a bare
`writeln!`. -/
def format_interface (_p : DocPrinter) (node : DocNode) : List Write :=
  match node.interface_def with
  | none => []
  | some idf =>
    (idf.properties.flatMap fun pd =>
      [[Indent 1, Chunk.plain pd.repr, nlChunk]] ++ format_jsdoc pd.js_doc 2) ++
    (idf.methods.flatMap fun md =>
      [[Indent 1, Chunk.plain md.repr, nlChunk]] ++ format_jsdoc md.js_doc 2) ++
    (idf.indexSignatures.map fun s => [Indent 1, Chunk.plain s, nlChunk]) ++
    [[nlChunk]]

/-- Embedding of `DocPrinter::format_namespace` (printer.rs lines 219-230): each
element's signature at indent 1 and doc at indent 2, in the elements'
given order (no sorting and no body expansion), then a bare
`writeln!`. -/
def format_namespace (p : DocPrinter) (node : DocNode) : List Write :=
  match node.namespace_def with
  | none => []
  | some elements =>
    (elements.flatMap fun el =>
      format_signature p el 1 ++ format_jsdoc el.js_doc 2) ++
    [[nlChunk]]

/-- The `Defined in file:line:col` header write (printer.rs lines
66-74): a single `write!` of an italic-gray string ending in two
newlines. -/
def location_header (node : DocNode) : Write :=
  [colors.italic_gray ("Defined in " ++ node.location.filename ++ ":" ++
    toString node.location.line ++ ":" ++ toString node.location.col ++ "\n\n")]

/-- The body of the per-node loop of `DocPrinter::format_` (printer.rs
lines 66-88): location header, signature, doc at indent+1, a bare
`writeln!`, then the kind-specific body for composite kinds. -/
def format_node (p : DocPrinter) (node : DocNode) (indent : Nat) : List Write :=
  [location_header node] ++
  format_signature p node indent ++
  format_jsdoc node.js_doc (indent + 1) ++
  [[nlChunk]] ++
  (match node.kind with
    | .Class => format_class p node
    | .Enum => format_enum p node
    | .Interface => format_interface p node
    | .Namespace => format_namespace p node
    | _ => [])

/-- Embedding of `DocPrinter::format_` (printer.rs lines 46-95): sort the sibling
list, then emit each node in order.  The `enable_color`/`disable_color`
bracketing (lines 52-54, 90-92) is modelled by `DocPrinter.output`
choosing the colored or plain rendering of the trace. -/
def format_ (p : DocPrinter) (doc_nodes : List DocNode) (indent : Nat) : List Write :=
  (sortNodes doc_nodes).flatMap fun node => format_node p node indent

/-- Embedding of `DocPrinter::format` (printer.rs lines 42-44). -/
def DocPrinter.format (p : DocPrinter) : List Write :=
  format_ p p.doc_nodes 0

/-- All chunks of a rendering pass, in emission order. -/
def DocPrinter.outputChunks (p : DocPrinter) : List Chunk :=
  p.format.flatten

/-- The text a rendering pass puts on the sink: styled per
`use_color`. -/
def DocPrinter.output (p : DocPrinter) : String :=
  if p.use_color then renderAnsi p.outputChunks else renderPlain p.outputChunks

/-- Modelled from the spec: the output sink (`std::fmt::Formatter`, not
part of the provided source).  `runWrites ws (some k)` is a sink that
accepts exactly `k` writes and then fails; `runWrites ws none` never
fails.  It returns whether the pass succeeded and the chunks that
reached the sink; every write in printer.rs carries `?`, so the first
failing write ends the pass. -/
def runWrites : List Write → Option Nat → Bool × List Chunk
  | [], _ => (true, [])
  | _ :: _, some 0 => (false, [])
  | w :: ws, some (k + 1) =>
    let r := runWrites ws (some k)
    (r.1, w ++ r.2)
  | w :: ws, none =>
    let r := runWrites ws none
    (r.1, w ++ r.2)

/-! ## Basic lemmas about strings, rendering and the sibling order -/

theorem strData_ext {a b : String} (h : a.data = b.data) : a = b :=
  congrArg String.mk h

theorem str_empty_append (s : String) : "" ++ s = s := by
  apply strData_ext
  simp [String.data_append]

theorem str_append_empty (s : String) : s ++ "" = s := by
  apply strData_ext
  simp [String.data_append]

theorem renderPlain_append (a b : List Chunk) :
    renderPlain (a ++ b) = renderPlain a ++ renderPlain b := by
  induction a with
  | nil => simp [renderPlain, str_empty_append]
  | cons c cs ih => simp [renderPlain, ih, String.append_assoc]

theorem renderAnsi_append (a b : List Chunk) :
    renderAnsi (a ++ b) = renderAnsi a ++ renderAnsi b := by
  induction a with
  | nil => simp [renderAnsi, str_empty_append]
  | cons c cs ih => simp [renderAnsi, ih, String.append_assoc]

theorem lexLe_cons (a b : Char) (as bs : List Char) :
    lexLe (a :: as) (b :: bs) =
      if a < b then true else if b < a then false else lexLe as bs := rfl

theorem lexLe_cons_iff {a b : Char} {as bs : List Char} :
    lexLe (a :: as) (b :: bs) = true ↔ a < b ∨ (a = b ∧ lexLe as bs = true) := by
  rw [lexLe_cons]
  split_ifs with h1 h2
  · simp [h1]
  · simp only [Bool.false_eq_true, false_iff]
    rintro (h | ⟨he, _⟩)
    · exact h1 h
    · exact lt_irrefl b (he ▸ h2)
  · have hab : a = b := le_antisymm (not_lt.mp h2) (not_lt.mp h1)
    subst hab
    simp [h1]

theorem lexLe_trans : ∀ as bs cs : List Char,
    lexLe as bs = true → lexLe bs cs = true → lexLe as cs = true := by
  intro as
  induction as with
  | nil => intro bs cs _ _; rfl
  | cons a as ih =>
    intro bs cs h1 h2
    cases bs with
    | nil => simp [lexLe] at h1
    | cons b bs =>
      cases cs with
      | nil => simp [lexLe] at h2
      | cons c cs =>
        rw [lexLe_cons_iff] at h1 h2 ⊢
        rcases h1 with h1 | ⟨h1e, h1r⟩
        · rcases h2 with h2 | ⟨h2e, h2r⟩
          · exact Or.inl (lt_trans h1 h2)
          · exact Or.inl (h2e ▸ h1)
        · rcases h2 with h2 | ⟨h2e, h2r⟩
          · exact Or.inl (h1e ▸ h2)
          · exact Or.inr ⟨h1e.trans h2e, ih bs cs h1r h2r⟩

theorem lexLe_total : ∀ as bs : List Char, lexLe as bs = true ∨ lexLe bs as = true := by
  intro as
  induction as with
  | nil => intro bs; exact Or.inl rfl
  | cons a as ih =>
    intro bs
    cases bs with
    | nil => exact Or.inr rfl
    | cons b bs =>
      rw [lexLe_cons_iff, lexLe_cons_iff]
      rcases lt_trichotomy a b with h | h | h
      · exact Or.inl (Or.inl h)
      · rcases ih bs with hr | hr
        · exact Or.inl (Or.inr ⟨h, hr⟩)
        · exact Or.inr (Or.inr ⟨h.symm, hr⟩)
      · exact Or.inr (Or.inl h)

instance : IsTrans DocNode nodeLe := by
  constructor
  intro a b c hab hbc
  rcases hab with hab | ⟨hab, hab2⟩
  · rcases hbc with hbc | ⟨hbc, _⟩
    · exact Or.inl (Nat.lt_trans hab hbc)
    · exact Or.inl (hbc ▸ hab)
  · rcases hbc with hbc | ⟨hbc, hbc2⟩
    · exact Or.inl (hab ▸ hbc)
    · exact Or.inr ⟨hab.trans hbc, lexLe_trans _ _ _ hab2 hbc2⟩

instance : IsTotal DocNode nodeLe := by
  constructor
  intro a b
  rcases Nat.lt_trichotomy (kind_order a.kind) (kind_order b.kind) with h | h | h
  · exact Or.inl (Or.inl h)
  · rcases lexLe_total a.name.data b.name.data with hr | hr
    · exact Or.inl (Or.inr ⟨h, hr⟩)
    · exact Or.inr (Or.inr ⟨h.symm, hr⟩)
  · exact Or.inr (Or.inl h)

/-! ## Example inputs used in the concrete parts of the claims -/

/-- A fixed location for example nodes. -/
def exLoc : Location := ⟨"file.ts", 1, 1⟩

/-- A class payload with no members and no clauses. -/
def emptyClassDef : ClassDef := ⟨false, [], none, [], [], [], [], [], [], []⟩

/-- A function payload with no parameters and no modifiers. -/
def emptyFnDef : FunctionDef := ⟨false, false, [], [], none, []⟩

/-- An example Class node with an empty class payload. -/
def mkClassNode (name : String) : DocNode :=
  .mk .Class name exLoc ⟨none⟩ none none (some emptyClassDef) none none none none

/-- An example Function node with an empty function payload. -/
def mkFnNode (name : String) : DocNode :=
  .mk .Function name exLoc ⟨none⟩ (some emptyFnDef) none none none none none none

/-- A printer with both flags off (no color, no private members). -/
def pPlain : DocPrinter := ⟨[], false, false⟩

/-! ## Claim theorems -/

/-- Claim C1: for every list of sibling DocNodes rendered at the top
level, the rendered order is a total order with primary key the fixed
kind rank (ModuleDoc 0 < Function 1 < Variable 2 < Class 3 < Enum 4 <
Interface 5 < TypeAlias 6 < Namespace 7 < Import 8, the `kind_order`
ranks inside `nodeLe`) and secondary key lexicographic name comparison;
in particular, for the siblings Class "B", Function "a", Class "A" the
output order is Function a, Class A, Class B. -/
theorem C1_top_level_order :
    (∀ (p : DocPrinter) (nodes : List DocNode) (indent : Nat),
        format_ p nodes indent =
          (sortNodes nodes).flatMap fun node => format_node p node indent) ∧
    (∀ nodes : List DocNode, (sortNodes nodes).Perm nodes) ∧
    (∀ nodes : List DocNode, List.Sorted nodeLe (sortNodes nodes)) ∧
    (∀ a b : DocNode, nodeLe a b ∨ nodeLe b a) ∧
    ((sortNodes [mkClassNode "B", mkFnNode "a", mkClassNode "A"]).map
        (fun n => (n.kind, n.name)) =
      [(.Function, "a"), (.Class, "A"), (.Class, "B")]) ∧
    (format_ pPlain [mkClassNode "B", mkFnNode "a", mkClassNode "A"] 0 =
      format_node pPlain (mkFnNode "a") 0 ++ format_node pPlain (mkClassNode "A") 0 ++
        format_node pPlain (mkClassNode "B") 0) :=
  ⟨fun _ _ _ => rfl,
   fun nodes => List.perm_insertionSort nodeLe nodes,
   fun nodes => List.sorted_insertionSort nodeLe nodes,
   fun a b => total_of nodeLe a b,
   by decide,
   by decide⟩

/-- An Import node used as a concrete check that location header and
trailing blank line are emitted even for kinds with empty signatures. -/
def importNode : DocNode :=
  .mk .Import "imp" ⟨"f.ts", 3, 7⟩ ⟨none⟩ none none none none none none none

/-- Claim C10: every node in the sorted top-level list — Import and
ModuleDoc included, whose signature output is empty — is emitted as the
`Defined in file:line:col` header plus a blank line, then the
signature, then the description lines, then exactly one further blank
line emitted unconditionally; an absent description contributes zero
description lines. -/
theorem C10_node_assembly :
    (∀ (p : DocPrinter) (node : DocNode) (indent : Nat),
        format_node p node indent =
          [[colors.italic_gray ("Defined in " ++ node.location.filename ++ ":" ++
              toString node.location.line ++ ":" ++ toString node.location.col ++ "\n\n")]] ++
          format_signature p node indent ++
          format_jsdoc node.js_doc (indent + 1) ++
          [[nlChunk]] ++
          (match node.kind with
            | .Class => format_class p node
            | .Enum => format_enum p node
            | .Interface => format_interface p node
            | .Namespace => format_namespace p node
            | _ => [])) ∧
    (∀ (node : DocNode) (indent : Nat), node.js_doc.doc = none →
        format_jsdoc node.js_doc (indent + 1) = []) ∧
    (∀ (p : DocPrinter) (node : DocNode) (indent : Nat),
        node.kind = .Import ∨ node.kind = .ModuleDoc →
        format_signature p node indent = []) ∧
    (∀ (p : DocPrinter) (nodes : List DocNode) (indent : Nat),
        format_ p nodes indent = (sortNodes nodes).flatMap fun n => format_node p n indent) := by
  refine ⟨fun _ _ _ => rfl, ?_, ?_, fun _ _ _ => rfl⟩
  · intro node indent h
    simp [format_jsdoc, h]
  · intro p node indent h
    cases node with
    | mk k nm loc jd fd vd cd ed idf td nsd =>
      rcases h with h | h
      · simp [DocNode.kind] at h
        subst h
        rfl
      · simp [DocNode.kind] at h
        subst h
        rfl

/-- Witness for C10: the assembly equation, the empty-description case
and the empty-signature case, at a concrete Import node. -/
theorem C10_witness :
    format_node pPlain importNode 0 =
      [[colors.italic_gray "Defined in f.ts:3:7\n\n"], [nlChunk]] ∧
    format_jsdoc importNode.js_doc 1 = [] ∧
    format_signature pPlain importNode 0 = [] :=
  ⟨(C10_node_assembly.1 pPlain importNode 0).trans (by decide),
   C10_node_assembly.2.1 importNode 0 rfl,
   C10_node_assembly.2.2.1 pPlain importNode 0 (Or.inl rfl)⟩

theorem memberShown_eq (p : DocPrinter) (acc : Option Accessibility) :
    memberShown p acc =
      (p.includePrivate || decide (acc ≠ some Accessibility.Private)) := by
  cases acc with
  | none => rfl
  | some a => cases a <;> rfl

/-- Claim C2: a class property or method member is rendered iff
`includePrivate` is true or its accessibility is not private (absent
accessibility counting as public); an excluded member produces no
output at all, and only class properties and methods are filtered —
constructors, index signatures and interface/enum members are always
rendered. -/
theorem C2_class_visibility_filter :
    (∀ (p : DocPrinter) (node : DocNode) (cd : ClassDef), node.class_def = some cd →
        format_class p node =
          (cd.constructors.flatMap fun c =>
            [[Indent 1, Chunk.plain c.repr, nlChunk]] ++ format_jsdoc c.js_doc 2) ++
          ((cd.properties.filter fun m =>
              p.includePrivate || decide (m.accessibility ≠ some .Private)).flatMap fun m =>
            (m.decorators.map fun d => [Indent 1, Chunk.plain d, nlChunk]) ++
            [[Indent 1, Chunk.plain m.repr, nlChunk]] ++ format_jsdoc m.js_doc 2) ++
          (cd.indexSignatures.map fun s => [Indent 1, Chunk.plain s, nlChunk]) ++
          ((cd.methods.filter fun m =>
              p.includePrivate || decide (m.accessibility ≠ some .Private)).flatMap fun m =>
            (m.function_def.decorators.map fun d => [Indent 1, Chunk.plain d, nlChunk]) ++
            [[Indent 1, Chunk.plain m.repr, nlChunk]] ++ format_jsdoc m.js_doc 2) ++
          [[nlChunk]]) ∧
    (∀ (p : DocPrinter) (acc : Option Accessibility),
        memberShown p acc = true ↔ (p.includePrivate = true ∨ acc ≠ some .Private)) ∧
    (∀ (p : DocPrinter) (node : DocNode) (idf : InterfaceDef), node.interface_def = some idf →
        format_interface p node =
          (idf.properties.flatMap fun pd =>
            [[Indent 1, Chunk.plain pd.repr, nlChunk]] ++ format_jsdoc pd.js_doc 2) ++
          (idf.methods.flatMap fun md =>
            [[Indent 1, Chunk.plain md.repr, nlChunk]] ++ format_jsdoc md.js_doc 2) ++
          (idf.indexSignatures.map fun s => [Indent 1, Chunk.plain s, nlChunk]) ++
          [[nlChunk]]) ∧
    (∀ (p : DocPrinter) (node : DocNode) (ed : EnumDef), node.enum_def = some ed →
        format_enum p node =
          (ed.members.flatMap fun m =>
            [[Indent 1, colors.bold m.name, nlChunk]] ++ format_jsdoc m.js_doc 2) ++
          [[nlChunk]]) := by
  refine ⟨?_, ?_, ?_, ?_⟩
  · intro p node cd h
    simp only [format_class, h, memberShown_eq]
  · intro p acc
    rw [memberShown_eq]
    simp
  · intro p node idf h
    simp only [format_interface, h]
  · intro p node ed h
    simp only [format_enum, h]

/-- Example class members for the filtering witness. -/
def ctorEx : ClassConstructorDef := ⟨"constructor()", ⟨none⟩⟩

/-- A property with absent accessibility (treated as public). -/
def propPub : ClassPropertyDef := ⟨"x: number", none, [], ⟨none⟩⟩

/-- A private property with a decorator. -/
def propPriv : ClassPropertyDef := ⟨"secret: string", some .Private, ["@dec1"], ⟨none⟩⟩

/-- A method with absent accessibility (treated as public). -/
def methPub : ClassMethodDef := ⟨"foo()", none, emptyFnDef, ⟨none⟩⟩

/-- A private method with a decorator on its function_def. -/
def methPriv : ClassMethodDef :=
  ⟨"bar()", some .Private, { emptyFnDef with decorators := ["@dec2"] }, ⟨none⟩⟩

/-- A class with a constructor, a public and a private property, an
index signature, and a public and a private method. -/
def classDefEx : ClassDef :=
  ⟨false, [], none, [], [], [], [ctorEx], [propPub, propPriv],
    ["[index: string]: number"], [methPub, methPriv]⟩

/-- The node holding `classDefEx`. -/
def classNodeEx : DocNode :=
  .mk .Class "C" exLoc ⟨none⟩ none none (some classDefEx) none none none none

/-- A printer that includes private members. -/
def pPriv : DocPrinter := ⟨[], false, true⟩

/-- Witness for C2: with `includePrivate = false` the private property
and method vanish entirely (their decorators included); with
`includePrivate = true` everything is rendered; and the filter
predicate at a private accessibility reduces as claimed. -/
theorem C2_witness :
    format_class pPlain classNodeEx =
      [[Chunk.plain "  ", Chunk.plain "constructor()", nlChunk],
       [Chunk.plain "  ", Chunk.plain "x: number", nlChunk],
       [Chunk.plain "  ", Chunk.plain "[index: string]: number", nlChunk],
       [Chunk.plain "  ", Chunk.plain "foo()", nlChunk],
       [nlChunk]] ∧
    format_class pPriv classNodeEx =
      [[Chunk.plain "  ", Chunk.plain "constructor()", nlChunk],
       [Chunk.plain "  ", Chunk.plain "x: number", nlChunk],
       [Chunk.plain "  ", Chunk.plain "@dec1", nlChunk],
       [Chunk.plain "  ", Chunk.plain "secret: string", nlChunk],
       [Chunk.plain "  ", Chunk.plain "[index: string]: number", nlChunk],
       [Chunk.plain "  ", Chunk.plain "foo()", nlChunk],
       [Chunk.plain "  ", Chunk.plain "@dec2", nlChunk],
       [Chunk.plain "  ", Chunk.plain "bar()", nlChunk],
       [nlChunk]] ∧
    Chunk.plain "@dec2" ∉ (format_class pPlain classNodeEx).flatten ∧
    (memberShown pPlain (some .Private) = true ↔
      (pPlain.includePrivate = true ∨ (some Accessibility.Private : Option Accessibility) ≠ some .Private)) :=
  ⟨(C2_class_visibility_filter.1 pPlain classNodeEx classDefEx rfl).trans (by decide),
   (C2_class_visibility_filter.1 pPriv classNodeEx classDefEx rfl).trans (by decide),
   by decide,
   C2_class_visibility_filter.2.1 pPlain (some .Private)⟩

/-- Claim C5: a Class body renders, in order: constructors (signature
line at depth 1, description lines at depth 2), then visibility-filtered
properties (decorator lines and signature line at depth 1, description
at depth 2), then index signatures (one depth-1 line each, no
description), then visibility-filtered methods (decorators, signature,
description at the same depths), followed by exactly one trailing blank
line. -/
theorem C5_class_body_order (p : DocPrinter) (node : DocNode) (cd : ClassDef)
    (h : node.class_def = some cd) :
    format_class p node =
      (cd.constructors.flatMap fun c =>
        [[Indent 1, Chunk.plain c.repr, nlChunk]] ++
        (match c.js_doc.doc with
          | some doc => (rustLines doc).map fun line => [Indent 2, colors.gray line, nlChunk]
          | none => [])) ++
      ((cd.properties.filter fun m => memberShown p m.accessibility).flatMap fun m =>
        (m.decorators.map fun d => [Indent 1, Chunk.plain d, nlChunk]) ++
        [[Indent 1, Chunk.plain m.repr, nlChunk]] ++
        (match m.js_doc.doc with
          | some doc => (rustLines doc).map fun line => [Indent 2, colors.gray line, nlChunk]
          | none => [])) ++
      (cd.indexSignatures.map fun s => [Indent 1, Chunk.plain s, nlChunk]) ++
      ((cd.methods.filter fun m => memberShown p m.accessibility).flatMap fun m =>
        (m.function_def.decorators.map fun d => [Indent 1, Chunk.plain d, nlChunk]) ++
        [[Indent 1, Chunk.plain m.repr, nlChunk]] ++
        (match m.js_doc.doc with
          | some doc => (rustLines doc).map fun line => [Indent 2, colors.gray line, nlChunk]
          | none => [])) ++
      [[nlChunk]] := by
  simp only [format_class, h, format_jsdoc]

/-- A class whose members carry doc comments, for the body-order
witness. -/
def classDocDef : ClassDef :=
  ⟨false, [], none, [], [], [],
    [⟨"constructor()", ⟨some "Builds it"⟩⟩],
    [⟨"x: number", none, ["@watch"], ⟨some "A field"⟩⟩],
    ["[k: string]: number"],
    [⟨"go(): void", none, emptyFnDef, ⟨some "Runs it"⟩⟩]⟩

/-- The node holding `classDocDef`. -/
def classDocNode : DocNode :=
  .mk .Class "D" exLoc ⟨none⟩ none none (some classDocDef) none none none none

/-- Witness for C5: the full member block of a concrete class, with
member lines indented one unit and description lines two units, ending
in a single blank line. -/
theorem C5_witness :
    format_class pPlain classDocNode =
      [[Chunk.plain "  ", Chunk.plain "constructor()", nlChunk],
       [Chunk.plain "    ", colors.gray "Builds it", nlChunk],
       [Chunk.plain "  ", Chunk.plain "@watch", nlChunk],
       [Chunk.plain "  ", Chunk.plain "x: number", nlChunk],
       [Chunk.plain "    ", colors.gray "A field", nlChunk],
       [Chunk.plain "  ", Chunk.plain "[k: string]: number", nlChunk],
       [Chunk.plain "  ", Chunk.plain "go(): void", nlChunk],
       [Chunk.plain "    ", colors.gray "Runs it", nlChunk],
       [nlChunk]] :=
  (C5_class_body_order pPlain classDocNode classDocDef rfl).trans (by decide)

/-- A namespace whose elements arrive out of sorted order: a Class "B"
before a Function "a". -/
def nsBad : DocNode :=
  .mk .Namespace "NS" exLoc ⟨none⟩ none none none none none none
    (some [mkClassNode "B", mkFnNode "a"])

/-- Counterexample to claim C3: `format_namespace` renders a
namespace's elements in their given order and never re-sorts them, so
for the element list [Class "B", Function "a"] the class is rendered
first, while the claimed kind-rank-then-name ordering would render
Function "a" first. -/
theorem C3_counterexample :
    format_namespace pPlain nsBad =
      (format_signature pPlain (mkClassNode "B") 1 ++ format_jsdoc (mkClassNode "B").js_doc 2) ++
      ((format_signature pPlain (mkFnNode "a") 1 ++ format_jsdoc (mkFnNode "a").js_doc 2) ++
        [[nlChunk]]) ∧
    format_namespace pPlain nsBad ≠
      (sortNodes [mkClassNode "B", mkFnNode "a"]).flatMap
        (fun el => format_signature pPlain el 1 ++ format_jsdoc el.js_doc 2) ++ [[nlChunk]] ∧
    (sortNodes [mkClassNode "B", mkFnNode "a"]).map (fun n => n.name) = ["a", "B"] ∧
    renderPlain (format_namespace pPlain nsBad).flatten = "  class B\n  function a()\n\n" :=
  ⟨by decide, by decide, by decide, by decide⟩

/-- Claim C3 (amended): the kind-rank-then-name ordering is recomputed
only for the root node list; a Namespace node's element list — like the
member lists of classes, interfaces, and enums — is rendered in its
given declaration order. -/
theorem C3_amended_order_scope :
    (∀ (p : DocPrinter) (nodes : List DocNode) (indent : Nat),
        format_ p nodes indent = (sortNodes nodes).flatMap fun n => format_node p n indent) ∧
    (∀ (p : DocPrinter) (node : DocNode) (els : List DocNode), node.namespace_def = some els →
        format_namespace p node =
          (els.flatMap fun el => format_signature p el 1 ++ format_jsdoc el.js_doc 2) ++
          [[nlChunk]]) ∧
    (∀ (p : DocPrinter) (node : DocNode) (cd : ClassDef), node.class_def = some cd →
        format_class p node =
          (cd.constructors.flatMap fun c =>
            [[Indent 1, Chunk.plain c.repr, nlChunk]] ++ format_jsdoc c.js_doc 2) ++
          ((cd.properties.filter fun m => memberShown p m.accessibility).flatMap fun m =>
            (m.decorators.map fun d => [Indent 1, Chunk.plain d, nlChunk]) ++
            [[Indent 1, Chunk.plain m.repr, nlChunk]] ++ format_jsdoc m.js_doc 2) ++
          (cd.indexSignatures.map fun s => [Indent 1, Chunk.plain s, nlChunk]) ++
          ((cd.methods.filter fun m => memberShown p m.accessibility).flatMap fun m =>
            (m.function_def.decorators.map fun d => [Indent 1, Chunk.plain d, nlChunk]) ++
            [[Indent 1, Chunk.plain m.repr, nlChunk]] ++ format_jsdoc m.js_doc 2) ++
          [[nlChunk]]) ∧
    (∀ (p : DocPrinter) (node : DocNode) (idf : InterfaceDef), node.interface_def = some idf →
        format_interface p node =
          (idf.properties.flatMap fun pd =>
            [[Indent 1, Chunk.plain pd.repr, nlChunk]] ++ format_jsdoc pd.js_doc 2) ++
          (idf.methods.flatMap fun md =>
            [[Indent 1, Chunk.plain md.repr, nlChunk]] ++ format_jsdoc md.js_doc 2) ++
          (idf.indexSignatures.map fun s => [Indent 1, Chunk.plain s, nlChunk]) ++
          [[nlChunk]]) ∧
    (∀ (p : DocPrinter) (node : DocNode) (ed : EnumDef), node.enum_def = some ed →
        format_enum p node =
          (ed.members.flatMap fun m =>
            [[Indent 1, colors.bold m.name, nlChunk]] ++ format_jsdoc m.js_doc 2) ++
          [[nlChunk]]) := by
  refine ⟨fun _ _ _ => rfl, ?_, ?_, ?_, ?_⟩
  · intro p node els h
    simp only [format_namespace, h]
  · intro p node cd h
    simp only [format_class, h]
  · intro p node idf h
    simp only [format_interface, h]
  · intro p node ed h
    simp only [format_enum, h]

/-- Witness for the amended C3: the namespace with elements
[Class "B", Function "a"] renders them in that given order. -/
theorem C3_amended_witness :
    format_namespace pPlain nsBad =
      [[Chunk.plain "  ", colors.magenta "class", Chunk.plain " ", colors.bold "B"],
       [nlChunk],
       [Chunk.plain "  ", colors.magenta "function", Chunk.plain " ", colors.bold "a"],
       [Chunk.plain "()"],
       [nlChunk],
       [nlChunk]] :=
  (C3_amended_order_scope.2.1 pPlain nsBad [mkClassNode "B", mkFnNode "a"] rfl).trans (by decide)

/-- A nested class including members and a doc comment. -/
def innerClassDef : ClassDef :=
  ⟨false, [], none, [], [], [], [⟨"constructor()", ⟨none⟩⟩],
    [⟨"y: string", none, [], ⟨none⟩⟩], [], [⟨"doStuff()", none, emptyFnDef, ⟨none⟩⟩]⟩

/-- The Class node holding `innerClassDef`, with a description. -/
def innerClass : DocNode :=
  .mk .Class "A" exLoc ⟨some "The class doc"⟩ none none (some innerClassDef) none none none none

/-- A namespace containing the nested class. -/
def nsNode : DocNode :=
  .mk .Namespace "NS" exLoc ⟨none⟩ none none none none none none (some [innerClass])

/-- Claim C6: a Namespace renders each nested element only one level
deep — its signature at depth 1 and its description lines at depth 2,
with no recursive body expansion; for a namespace containing a nested
class, the class's one-line signature and description appear, but none
of its constructors, properties, or methods do. -/
theorem C6_namespace_shallow :
    (∀ (p : DocPrinter) (node : DocNode) (els : List DocNode), node.namespace_def = some els →
        format_namespace p node =
          (els.flatMap fun el =>
            format_signature p el 1 ++
            (match el.js_doc.doc with
              | some doc => (rustLines doc).map fun line => [Indent 2, colors.gray line, nlChunk]
              | none => [])) ++
          [[nlChunk]]) ∧
    renderPlain (format_namespace pPlain nsNode).flatten = "  class A\n    The class doc\n\n" ∧
    ¬ ("doStuff()".data <:+: (renderPlain (format_namespace pPlain nsNode).flatten).data) ∧
    ¬ ("constructor()".data <:+: (renderPlain (format_namespace pPlain nsNode).flatten).data) ∧
    ¬ ("y: string".data <:+: (renderPlain (format_namespace pPlain nsNode).flatten).data) := by
  refine ⟨?_, by decide, by decide, by decide, by decide⟩
  intro p node els h
  simp only [format_namespace, h, format_jsdoc]

/-- Witness for C6: the namespace body of `nsNode` is exactly the
nested class's depth-1 signature and depth-2 description plus the
trailing blank line. -/
theorem C6_witness :
    format_namespace pPlain nsNode =
      [[Chunk.plain "  ", colors.magenta "class", Chunk.plain " ", colors.bold "A"],
       [nlChunk],
       [Chunk.plain "    ", colors.gray "The class doc", nlChunk],
       [nlChunk]] :=
  (C6_namespace_shallow.1 pPlain nsNode [innerClass] rfl).trans (by decide)

/-- Plain-text rendering of a whole write trace. -/
def plainOf (ws : List Write) : String := renderPlain ws.flatten

theorem plainOf_append (a b : List Write) : plainOf (a ++ b) = plainOf a ++ plainOf b := by
  unfold plainOf
  rw [List.flatten_append, renderPlain_append]

theorem plainOf_cons (w : Write) (ws : List Write) :
    plainOf (w :: ws) = renderPlain w ++ plainOf ws := by
  unfold plainOf
  rw [List.flatten_cons, renderPlain_append]

theorem decorator_lines (i : Nat) (ds : List String) :
    plainOf (ds.map fun d => [Indent i, Chunk.plain d, nlChunk]) =
      (ds.map fun d => indentOf i ++ d ++ "\n").foldr (· ++ ·) "" := by
  induction ds with
  | nil => rfl
  | cons d ds ih =>
    rw [List.map_cons, plainOf_cons, ih, List.map_cons, List.foldr_cons]
    simp [renderPlain, chunkText, Indent, nlChunk, String.append_assoc]

/-- The worked function-signature example of the spec: async generator
with one type parameter, one typed parameter, and a return type. -/
def fnDefEx : FunctionDef := ⟨true, true, ["T"], [⟨"x", some "T"⟩], some "T", []⟩

/-- The Function node holding `fnDefEx`. -/
def fnNodeEx : DocNode :=
  .mk .Function "Name" exLoc ⟨none⟩ (some fnDefEx) none none none none none none

/-- Claim C4: a Function signature renders exactly as
`[async ]function[*] Name[<TypeParams>](Params)[: ReturnType]` — the
`async ` prefix iff isAsync, the `*` iff isGenerator, angle brackets
only for a non-empty type-parameter list, comma-joined parameters, and
the return-type suffix only when present; in particular the example
with all features on renders exactly `async function* Name<T>(x: T): T`. -/
theorem C4_function_signature :
    (∀ (p : DocPrinter) (node : DocNode) (fd : FunctionDef) (indent : Nat),
        node.function_def = some fd →
        plainOf (format_function_signature p node indent) =
          indentOf indent ++ (if fd.isAsync then "async " else "") ++ "function" ++
          (if fd.isGenerator then "*" else "") ++ " " ++ node.name ++
          (if fd.typeParams.isEmpty then ""
            else "<" ++ String.intercalate ", " fd.typeParams ++ ">") ++
          "(" ++ String.intercalate ", " (fd.params.map paramRepr) ++ ")" ++
          (match fd.returnType with
            | some rt => ": " ++ rt
            | none => "") ++ "\n") ∧
    plainOf (format_function_signature pPlain fnNodeEx 0) =
      "async function* Name<T>(x: T): T\n" := by
  refine ⟨?_, by decide⟩
  intro p node fd indent h
  apply strData_ext
  simp only [format_function_signature, h, display_async, display_generator]
  split_ifs <;> rcases fd.returnType with _ | rt <;>
    simp [plainOf, renderPlain, chunkText, Indent, nlChunk, colors.magenta, colors.bold,
      String.data_append, List.append_assoc]

/-- Witness for C4: the template applied at the fully featured example
evaluates to the exact claimed signature line. -/
theorem C4_witness :
    plainOf (format_function_signature pPlain fnNodeEx 0) =
      "async function* Name<T>(x: T): T\n" :=
  (C4_function_signature.1 pPlain fnNodeEx fnDefEx 0 rfl).trans (by decide)

/-- Claim C8: a Class signature line is
`[abstract ]class Name[<TypeParams>][ extends Super[<SuperTypeParams>]][ implements I1, I2, ...]`
preceded by its decorator lines, with `abstract ` iff isAbstract, angle
brackets only for non-empty type parameters, super type arguments only
within the extends clause, and the implements clause only for a
non-empty implements list.  The spec's data model ties super type
arguments to the extends type, which gives the well-formedness
hypothesis `hw`. -/
theorem C8_class_signature (p : DocPrinter) (node : DocNode) (cd : ClassDef) (indent : Nat)
    (h : node.class_def = some cd)
    (hw : cd.superTypeParams = [] ∨ cd.extendsType ≠ none) :
    plainOf (format_class_signature p node indent) =
      (cd.decorators.map fun d => indentOf indent ++ d ++ "\n").foldr (· ++ ·) "" ++
      indentOf indent ++ (if cd.isAbstract then "abstract " else "") ++ "class " ++ node.name ++
      (if cd.typeParams.isEmpty then ""
        else "<" ++ String.intercalate ", " cd.typeParams ++ ">") ++
      (match cd.extendsType with
        | some e => " extends " ++ e ++
            (if cd.superTypeParams.isEmpty then ""
              else "<" ++ String.intercalate ", " cd.superTypeParams ++ ">")
        | none => "") ++
      (if cd.implements.isEmpty then ""
        else " implements " ++ String.intercalate ", " cd.implements) ++ "\n" := by
  simp only [format_class_signature, h, display_abstract]
  simp only [plainOf_append, decorator_lines]
  apply strData_ext
  rcases hex : cd.extendsType with _ | e
  · have hsup : cd.superTypeParams = [] := by
      rcases hw with hs | hn
      · exact hs
      · exact absurd hex hn
    split_ifs <;>
      simp_all [plainOf, renderPlain, chunkText, Indent, nlChunk, colors.magenta, colors.bold,
        String.data_append, List.append_assoc]
  · split_ifs <;>
      simp [plainOf, renderPlain, chunkText, Indent, nlChunk, colors.magenta, colors.bold,
        String.data_append, List.append_assoc]

/-- A decorated abstract class with type parameters, a parameterized
super class and two implemented interfaces. -/
def classSigDef : ClassDef :=
  ⟨true, ["T"], some "Base", ["T"], ["I1", "I2"], ["@sealed"], [], [], [], []⟩

/-- The node holding `classSigDef`. -/
def classSigNode : DocNode :=
  .mk .Class "G" exLoc ⟨none⟩ none none (some classSigDef) none none none none

/-- Witness for C8: the fully featured class signature renders with the
decorator on its own line and every clause in place. -/
theorem C8_witness :
    plainOf (format_class_signature pPlain classSigNode 0) =
      "@sealed\nabstract class G<T> extends Base<T> implements I1, I2\n" :=
  (C8_class_signature pPlain classSigNode classSigDef 0 rfl (Or.inr (by decide))).trans
    (by decide)

theorem stripGo_append : ∀ (a b : List Char) (st : Bool),
    stripGo (a ++ b) st = stripGo a st ++ stripGo b (stripState a st) := by
  intro a
  induction a with
  | nil => intro b st; cases st <;> rfl
  | cons c cs ih =>
    intro b st
    cases st with
    | false =>
      by_cases hc : c = '\x1b' <;>
        simp [stripGo, stripState, hc, ih]
    | true =>
      by_cases hc : c = 'm' <;>
        simp [stripGo, stripState, hc, ih]

theorem stripState_append : ∀ (a b : List Char) (st : Bool),
    stripState (a ++ b) st = stripState b (stripState a st) := by
  intro a
  induction a with
  | nil => intro b st; cases st <;> rfl
  | cons c cs ih =>
    intro b st
    cases st with
    | false =>
      by_cases hc : c = '\x1b' <;>
        simp [stripState, hc, ih]
    | true =>
      by_cases hc : c = 'm' <;>
        simp [stripState, hc, ih]

theorem stripGo_of_escFree : ∀ l : List Char, '\x1b' ∉ l →
    stripGo l false = l ∧ stripState l false = false := by
  intro l
  induction l with
  | nil => intro _; exact ⟨rfl, rfl⟩
  | cons c cs ih =>
    intro h
    have hc : c ≠ '\x1b' := fun he => h (he ▸ List.mem_cons_self c cs)
    have hcs := ih fun hm => h (List.mem_cons_of_mem c hm)
    simp [stripGo, stripState, hc, hcs.1, hcs.2]

theorem stripGo_styleCode (st : Style) :
    stripGo (styleCode st).data false = [] ∧ stripState (styleCode st).data false = false := by
  cases st <;> exact ⟨by decide, by decide⟩

theorem stripGo_chunkAnsi (c : Chunk) (h : escFree (chunkText c)) :
    stripGo (chunkAnsi c).data false = (chunkText c).data ∧
    stripState (chunkAnsi c).data false = false := by
  cases c with
  | plain s => exact stripGo_of_escFree s.data h
  | styled st s =>
    have hs := stripGo_of_escFree s.data h
    have hcode := stripGo_styleCode st
    have hreset : stripGo resetCode.data false = [] ∧ stripState resetCode.data false = false :=
      ⟨by decide, by decide⟩
    constructor
    · simp only [chunkAnsi, String.data_append, stripGo_append, stripState_append,
        hcode.1, hcode.2, hs.1, hs.2, hreset.1, chunkText]
      simp
    · simp only [chunkAnsi, String.data_append, stripState_append, hcode.2, hs.2, hreset.2]

theorem strip_renderAnsi : ∀ cs : List Chunk, (∀ c ∈ cs, escFree (chunkText c)) →
    stripGo (renderAnsi cs).data false = (renderPlain cs).data ∧
    stripState (renderAnsi cs).data false = false ∧
    '\x1b' ∉ (renderPlain cs).data := by
  intro cs
  induction cs with
  | nil => intro _; refine ⟨rfl, rfl, by decide⟩
  | cons c cs ih =>
    intro h
    have hc := h c (List.mem_cons_self c cs)
    have hcs := ih fun c' hm => h c' (List.mem_cons_of_mem c hm)
    have hchunk := stripGo_chunkAnsi c hc
    refine ⟨?_, ?_, ?_⟩
    · rw [renderAnsi, String.data_append, stripGo_append, hchunk.1, hchunk.2, hcs.1,
        renderPlain, String.data_append]
    · rw [renderAnsi, String.data_append, stripState_append, hchunk.2, hcs.2.1]
    · rw [renderPlain, String.data_append]
      intro hm
      rcases List.mem_append.mp hm with hm | hm
      · exact hc hm
      · exact hcs.2.2 hm

theorem outputChunks_color_blind (dn : List DocNode) (ip : Bool) :
    (DocPrinter.mk dn true ip).outputChunks = (DocPrinter.mk dn false ip).outputChunks := rfl

/-- An Import node whose location filename smuggles in a raw ANSI
escape sequence. -/
def escNode : DocNode :=
  .mk .Import "X" ⟨"\x1b[31mevil.ts", 1, 1⟩ ⟨none⟩ none none none none none none none

/-- A colorless pass over `escNode`. -/
def pEscPlain : DocPrinter := ⟨[escNode], false, false⟩

/-- A colored pass over `escNode`. -/
def pEscColor : DocPrinter := ⟨[escNode], true, false⟩

/-- Counterexample to claim C7: the claim quantifies over every
rendering pass, but a node whose filename contains a raw ESC character
produces output with an ANSI escape sequence even with `use_color`
disabled, and stripping the colored output then disagrees with the
uncolored output (the input's own escape sequence is stripped too). -/
theorem C7_counterexample :
    ¬ escFree (DocPrinter.output pEscPlain) ∧
    stripAnsi (DocPrinter.output pEscColor) ≠ DocPrinter.output pEscPlain :=
  ⟨by decide, by decide⟩

/-- Claim C7 (amended): for every rendering pass whose emitted text
content is free of raw ESC (0x1b) characters — true whenever the input
tree's strings contain none — color changes only styling: the
uncolored pass emits no ANSI escape sequences, and stripping ANSI
escape codes from the colored pass's output is byte-identical to the
uncolored pass's output. -/
theorem C7_amended_color_transparency (dn : List DocNode) (ip : Bool)
    (h : ∀ c ∈ (DocPrinter.mk dn false ip).outputChunks, escFree (chunkText c)) :
    escFree (DocPrinter.output (DocPrinter.mk dn false ip)) ∧
    stripAnsi (DocPrinter.output (DocPrinter.mk dn true ip)) =
      DocPrinter.output (DocPrinter.mk dn false ip) := by
  have hmain := strip_renderAnsi (DocPrinter.mk dn false ip).outputChunks h
  have hplain : DocPrinter.output (DocPrinter.mk dn false ip) =
      renderPlain (DocPrinter.mk dn false ip).outputChunks := rfl
  constructor
  · rw [hplain]
    exact hmain.2.2
  · have ht : DocPrinter.output (DocPrinter.mk dn true ip) =
        renderAnsi (DocPrinter.mk dn false ip).outputChunks := by
      rw [show DocPrinter.output (DocPrinter.mk dn true ip) =
        renderAnsi (DocPrinter.mk dn true ip).outputChunks from rfl, outputChunks_color_blind]
    rw [ht, hplain]
    apply strData_ext
    exact hmain.1

/-- Witness for the amended C7: stripping the colored pass over a
one-function tree reproduces the uncolored pass byte for byte. -/
theorem C7_witness :
    stripAnsi (DocPrinter.output (DocPrinter.mk [mkFnNode "a"] true false)) =
      DocPrinter.output (DocPrinter.mk [mkFnNode "a"] false false) ∧
    DocPrinter.output (DocPrinter.mk [mkFnNode "a"] false false) =
      "Defined in file.ts:1:1\n\nfunction a()\n\n" :=
  ⟨(C7_amended_color_transparency [mkFnNode "a"] false (by decide)).2, by decide⟩

theorem runWrites_none (ws : List Write) :
    runWrites ws none = (true, ws.flatten) := by
  induction ws with
  | nil => rfl
  | cons w ws ih => simp [runWrites, ih, List.flatten_cons]

theorem runWrites_some_lt : ∀ (ws : List Write) (k : Nat), k < ws.length →
    runWrites ws (some k) = (false, (ws.take k).flatten) := by
  intro ws
  induction ws with
  | nil => intro k hk; simp at hk
  | cons w ws ih =>
    intro k hk
    cases k with
    | zero => rfl
    | succ k =>
      have hr := ih k (Nat.lt_of_succ_lt_succ hk)
      simp [runWrites, hr, List.take_succ_cons, List.flatten_cons]

/-- Claim C9: when a write to the output sink fails during a rendering
pass — here, a sink accepting only `k` of the pass's writes with `k`
less than the write count — the pass aborts at once and propagates the
failure as its result: the emitted output is exactly the first `k`
writes, a prefix of the failure-free pass's output, and nothing after
the failing write is emitted (a sink that never fails runs the whole
trace and succeeds). -/
theorem C9_write_failure_aborts (p : DocPrinter) (k : Nat) (hk : k < p.format.length) :
    (runWrites p.format (some k)).1 = false ∧
    (runWrites p.format (some k)).2 = (p.format.take k).flatten ∧
    (runWrites p.format (some k)).2 <+: (runWrites p.format none).2 ∧
    runWrites p.format none = (true, p.format.flatten) := by
  have hs := runWrites_some_lt p.format k hk
  have hn := runWrites_none p.format
  refine ⟨by rw [hs], by rw [hs], ?_, hn⟩
  rw [hs, hn]
  exact ⟨(p.format.drop k).flatten, by rw [← List.flatten_append, List.take_append_drop]⟩

/-- Witness for C9: a sink failing at the third write of a one-function
pass yields a failed pass whose output is exactly the first two
writes. -/
theorem C9_witness :
    (runWrites (DocPrinter.format ⟨[mkFnNode "a"], false, false⟩) (some 2)).1 = false ∧
    (runWrites (DocPrinter.format ⟨[mkFnNode "a"], false, false⟩) (some 2)).2 =
      [Chunk.styled .italicGray "Defined in file.ts:1:1\n\n",
       Chunk.plain "", colors.magenta "function", Chunk.plain " ",
       colors.bold "a"] :=
  ⟨(C9_write_failure_aborts ⟨[mkFnNode "a"], false, false⟩ 2 (by decide)).1,
   ((C9_write_failure_aborts ⟨[mkFnNode "a"], false, false⟩ 2 (by decide)).2.1).trans
     (by decide)⟩
